import Mathlib

/-!
Shallow embedding of the NY Tax Tipping Point calculator core
(`src/lib/model.ts` / `src/lib/data.ts`, shipped inside
`src/scripts/refresh-data.mjs` in this snapshot).

JavaScript numbers are modelled as real numbers; `Math.exp` becomes
`Real.exp`, `Math.min`/`Math.max` become `min`/`max`, `Math.abs` becomes
`abs`, `Math.round x` becomes `⌊x + 1/2⌋`, and the unbounded `Infinity`
upper bound of a tax bracket is modelled as `Option.none`.  Arrays become
lists; `Array.prototype.reduce` with initial value `0` becomes
`List.foldl`.  The provenance metadata field (`source`) of a cohort is a
pure annotation never read by any computation and is not modelled.
-/

noncomputable section

namespace NyTax

/-- A tax bracket `{min, max, rate}`; `max = none` models the JS value
`Infinity` used for the top bracket. -/
structure TaxBracket where
  min : ℝ
  max : Option ℝ
  rate : ℝ

/-- An income cohort record (from `data.ts`); the `source` provenance
annotation is omitted because no computation reads it. -/
structure IncomeCohort where
  label : String
  agiMin : ℝ
  agiMax : ℝ
  filerCount : ℝ
  totalAgi : ℝ
  nysLiability : ℝ
  nycLiability : ℝ
  nycResidentShare : ℝ

/-- A policy change record (from `types.ts`). -/
structure PolicyChange where
  surchargeRate : ℝ
  surchargeThreshold : ℝ
  flatRateChange : ℝ
  includeNyc : Bool
  nycSurchargeRate : ℝ
  nycSurchargeThreshold : ℝ

/-- The four behavioral model selectors. -/
inductive BehavioralModelType where
  | none
  | elasticity
  | threshold
  | hybrid
deriving DecidableEq

/-- Behavioral migration parameters (from `types.ts`). -/
structure BehavioralParams where
  model : BehavioralModelType
  baseMigrationRate : ℝ
  migrationElasticity : ℝ
  maxMigrationShare : ℝ
  thresholdDollars : ℝ
  logisticSlope : ℝ
  year1Share : ℝ
  year3Share : ℝ
  year5Share : ℝ
  replacementRate : ℝ

/-- The full model input: policy, behavioral params, time horizon and the
middle-income band. `TimeHorizon` is the type `1 | 3 | 5` in the source;
it is modelled as `ℕ` because `getTimeScale` has a default arm. -/
structure ModelInput where
  policy : PolicyChange
  behavioral : BehavioralParams
  timeHorizon : ℕ
  middleIncomeMin : ℝ
  middleIncomeMax : ℝ

/-- Per-cohort output record. -/
structure CohortResult where
  cohort : IncomeCohort
  additionalTaxPerFiler : ℝ
  mechanicalGain : ℝ
  migrationShare : ℝ
  migrationLoss : ℝ
  netRevenueChange : ℝ

/-- Result of the middle-income offset calculator.  The three nullable
fields are `number | null` in the source. -/
structure MiddleIncomeOffset where
  rateIncrease : Option ℝ
  perFiler : Option ℝ
  pctIncome : Option ℝ
  filerCount : ℝ

/-- Aggregate model output. -/
structure ModelOutput where
  cohortResults : List CohortResult
  totalMechanicalGain : ℝ
  totalBehavioralLoss : ℝ
  netRevenueChange : ℝ
  baselineRevenue : ℝ
  middleIncomeOffset : Option ℝ
  middleIncomeOffsetPerFiler : Option ℝ
  middleIncomeOffsetPctIncome : Option ℝ
  middleIncomeFilerCount : ℝ
  timeHorizon : ℕ

/-- One point of the revenue curve sweep. -/
structure RevenueCurvePoint where
  surchargeRate : ℝ
  mechanicalGain : ℝ
  behavioralLoss : ℝ
  netRevenue : ℝ

/-- `computeTax`: walk the brackets, taxing `min(income, max) - min` at
each marginal rate, stopping at the first bracket with `income ≤ min`
(the loop `break`). -/
def computeTax (income : ℝ) : List TaxBracket → ℝ
  | [] => 0
  | b :: rest =>
      if income ≤ b.min then 0
      else
        ((match b.max with
          | some m => min income m
          | Option.none => income) - b.min) * b.rate + computeTax income rest

/-- `computeSurcharge`: `0` at or below the threshold, else
`(income - threshold) * rate`. -/
def computeSurcharge (income rate threshold : ℝ) : ℝ :=
  if income ≤ threshold then 0 else (income - threshold) * rate

/-- `computeAdditionalTaxPerFiler`: flat-rate change on the full average
AGI, plus the NYS surcharge when both its rate and threshold are
positive, plus — only for an NYC resident under a policy with
`includeNyc` — the NYC surcharge under the same positivity guard. -/
def computeAdditionalTaxPerFiler (avgAgi : ℝ) (policy : PolicyChange)
    (isNycResident : Bool) : ℝ :=
  (if policy.flatRateChange ≠ 0 then avgAgi * policy.flatRateChange else 0) +
  (if 0 < policy.surchargeRate ∧ 0 < policy.surchargeThreshold then
    computeSurcharge avgAgi policy.surchargeRate policy.surchargeThreshold
  else 0) +
  (if isNycResident && policy.includeNyc then
    (if 0 < policy.nycSurchargeRate ∧ 0 < policy.nycSurchargeThreshold then
      computeSurcharge avgAgi policy.nycSurchargeRate policy.nycSurchargeThreshold
    else 0)
  else 0)

/-- `getTimeScale`: the `switch` on the 1/3/5-year horizon with default
scale `1`. -/
def getTimeScale (horizon : ℕ) (params : BehavioralParams) : ℝ :=
  if horizon = 1 then params.year1Share
  else if horizon = 3 then params.year3Share
  else if horizon = 5 then params.year5Share
  else 1

/-- The shared tail of `computeMigrationShare` after the `switch` has
produced `rawShare`: time scaling, replacement offset, and the final
clamp `Math.max(0, Math.min(maxMigrationShare, netShare))`. -/
def netShareClamp (params : BehavioralParams) (rawShare : ℝ)
    (timeHorizon : ℕ) : ℝ :=
  max 0 (min params.maxMigrationShare
    (rawShare * getTimeScale timeHorizon params * (1 - params.replacementRate)))

/-- `computeMigrationShare`: early return `0` for non-positive burden,
then the `switch` over the four model types; each non-`none` branch
computes its `rawShare` and flows into the shared clamp tail. -/
def computeMigrationShare (additionalTaxPerFiler avgAgi : ℝ)
    (params : BehavioralParams) (timeHorizon : ℕ) : ℝ :=
  if additionalTaxPerFiler ≤ 0 then 0
  else
    match params.model with
    | .none => 0
    | .elasticity =>
        netShareClamp params
          (params.baseMigrationRate +
            params.migrationElasticity * (additionalTaxPerFiler / avgAgi))
          timeHorizon
    | .threshold =>
        netShareClamp params
          (if additionalTaxPerFiler < params.thresholdDollars then
            params.baseMigrationRate
          else
            params.baseMigrationRate +
              (params.maxMigrationShare - params.baseMigrationRate) *
                min 1 ((additionalTaxPerFiler - params.thresholdDollars) /
                  params.thresholdDollars))
          timeHorizon
    | .hybrid =>
        netShareClamp params
          (params.baseMigrationRate +
            (params.maxMigrationShare - params.baseMigrationRate) *
              (1 / (1 + Real.exp
                (-((additionalTaxPerFiler - params.thresholdDollars) /
                  params.logisticSlope)))))
          timeHorizon

/-- The body of the `cohorts.map` closure inside `runModel`. -/
def cohortEval (policy : PolicyChange) (behavioral : BehavioralParams)
    (timeHorizon : ℕ) (cohort : IncomeCohort) : CohortResult :=
  let avgAgi := cohort.totalAgi / cohort.filerCount
  let additionalTaxNys :=
    computeAdditionalTaxPerFiler avgAgi { policy with includeNyc := false } false
  let additionalTaxNyc :=
    if policy.includeNyc then
      computeAdditionalTaxPerFiler avgAgi policy true - additionalTaxNys
    else 0
  let additionalTaxPerFiler :=
    additionalTaxNys + additionalTaxNyc * cohort.nycResidentShare
  let mechanicalGain := additionalTaxPerFiler * cohort.filerCount
  let migrationShare :=
    computeMigrationShare additionalTaxPerFiler avgAgi behavioral timeHorizon
  let existingTaxPerFiler :=
    (cohort.nysLiability + cohort.nycLiability) / cohort.filerCount
  let leavingFilers := cohort.filerCount * migrationShare
  let migrationLoss := leavingFilers * (existingTaxPerFiler + additionalTaxPerFiler)
  { cohort := cohort
    additionalTaxPerFiler := additionalTaxPerFiler
    mechanicalGain := mechanicalGain
    migrationShare := migrationShare
    migrationLoss := migrationLoss
    netRevenueChange := mechanicalGain - migrationLoss }

/-- The cohorts overlapping the middle-income band (even partially). -/
def middleCohorts (middleIncomeMin middleIncomeMax : ℝ)
    (cohorts : List IncomeCohort) : List IncomeCohort :=
  cohorts.filter fun c =>
    decide (c.agiMin < middleIncomeMax ∧ middleIncomeMin < c.agiMax)

/-- The fractional overlap of a cohort's AGI range with the band,
clamped to `[0, 1]` exactly as in the source
(`Math.max(0, Math.min(1, overlapFraction))`). -/
def clampedOverlap (middleIncomeMin middleIncomeMax : ℝ)
    (c : IncomeCohort) : ℝ :=
  max 0 (min 1
    ((min c.agiMax middleIncomeMax - max c.agiMin middleIncomeMin) /
      (c.agiMax - c.agiMin)))

/-- The prorated AGI total of the overlapping cohorts (`totalMiddleAgi`
in the source). -/
def totalMiddleAgi (middleIncomeMin middleIncomeMax : ℝ)
    (cohorts : List IncomeCohort) : ℝ :=
  (middleCohorts middleIncomeMin middleIncomeMax cohorts).foldl
    (fun s c => s + c.totalAgi * clampedOverlap middleIncomeMin middleIncomeMax c) 0

/-- The prorated filer-count total of the overlapping cohorts
(`filerCount` in the source's shortfall branch). -/
def middleFilerCount (middleIncomeMin middleIncomeMax : ℝ)
    (cohorts : List IncomeCohort) : ℝ :=
  (middleCohorts middleIncomeMin middleIncomeMax cohorts).foldl
    (fun s c => s + c.filerCount * clampedOverlap middleIncomeMin middleIncomeMax c) 0

/-- `computeMiddleIncomeOffset`: null fields when there is no shortfall
(still counting filers of cohorts fully inside the band), all-null on a
degenerate band, otherwise the uniform break-even rate increase. -/
def computeMiddleIncomeOffset (netRevenueChange middleIncomeMin middleIncomeMax : ℝ)
    (cohorts : List IncomeCohort) : MiddleIncomeOffset :=
  if 0 ≤ netRevenueChange then
    { rateIncrease := Option.none, perFiler := Option.none, pctIncome := Option.none
      filerCount :=
        (cohorts.filter fun c =>
          decide (middleIncomeMin ≤ c.agiMin ∧ c.agiMax ≤ middleIncomeMax)).foldl
          (fun s c => s + c.filerCount) 0 }
  else
    let shortfall := |netRevenueChange|
    let agiTotal := totalMiddleAgi middleIncomeMin middleIncomeMax cohorts
    let fcTotal := middleFilerCount middleIncomeMin middleIncomeMax cohorts
    if agiTotal = 0 ∨ fcTotal = 0 then
      { rateIncrease := Option.none, perFiler := Option.none
        pctIncome := Option.none, filerCount := 0 }
    else
      let rateIncrease := shortfall / agiTotal
      let perFiler := shortfall / fcTotal
      let avgMiddleIncome := agiTotal / fcTotal
      { rateIncrease := some rateIncrease
        perFiler := some perFiler
        pctIncome := some (perFiler / avgMiddleIncome)
        filerCount := ((⌊fcTotal + 1 / 2⌋ : ℤ) : ℝ) }

/-- `runModel`: map the cohort evaluator over all cohorts, total the
mechanical gains and migration losses as independent column sums, and
invoke the middle-income offset calculator. -/
def runModel (input : ModelInput) (cohorts : List IncomeCohort) : ModelOutput :=
  let cohortResults :=
    cohorts.map (cohortEval input.policy input.behavioral input.timeHorizon)
  let totalMechanicalGain := cohortResults.foldl (fun s r => s + r.mechanicalGain) 0
  let totalBehavioralLoss := cohortResults.foldl (fun s r => s + r.migrationLoss) 0
  let netRevenueChange := totalMechanicalGain - totalBehavioralLoss
  let baselineRevenue := cohorts.foldl (fun s c => s + c.nysLiability + c.nycLiability) 0
  let middleOffset :=
    computeMiddleIncomeOffset netRevenueChange input.middleIncomeMin
      input.middleIncomeMax cohorts
  { cohortResults := cohortResults
    totalMechanicalGain := totalMechanicalGain
    totalBehavioralLoss := totalBehavioralLoss
    netRevenueChange := netRevenueChange
    baselineRevenue := baselineRevenue
    middleIncomeOffset := middleOffset.rateIncrease
    middleIncomeOffsetPerFiler := middleOffset.perFiler
    middleIncomeOffsetPctIncome := middleOffset.pctIncome
    middleIncomeFilerCount := middleOffset.filerCount
    timeHorizon := input.timeHorizon }

/-- `generateRevenueCurve`: sweep the NYS surcharge rate from `0` to
`maxRate` in `steps` equal steps (inclusive of both endpoints) and
record the totals of each run. -/
def generateRevenueCurve (baseInput : ModelInput) (maxRate : ℝ) (steps : ℕ)
    (cohorts : List IncomeCohort) : List RevenueCurvePoint :=
  (List.range (steps + 1)).map fun (i : ℕ) =>
    let rate := maxRate * (i : ℝ) / (steps : ℝ)
    let output :=
      runModel { baseInput with
        policy := { baseInput.policy with surchargeRate := rate } } cohorts
    { surchargeRate := rate
      mechanicalGain := output.totalMechanicalGain
      behavioralLoss := output.totalBehavioralLoss
      netRevenue := output.netRevenueChange }

/-- Sample behavioral parameters (the library defaults of the source:
`DEFAULT_BEHAVIORAL_PARAMS`), used to instantiate witnesses. -/
def sampleParams : BehavioralParams :=
  { model := .hybrid
    baseMigrationRate := 0.025
    migrationElasticity := 1
    maxMigrationShare := 0.12
    thresholdDollars := 100000
    logisticSlope := 50000
    year1Share := 0.3
    year3Share := 0.7
    year5Share := 1
    replacementRate := 0 }

/-- A sample policy: a 2% surcharge above $1M, no NYC component. -/
def samplePolicy : PolicyChange :=
  { surchargeRate := 0.02
    surchargeThreshold := 1000000
    flatRateChange := 0
    includeNyc := false
    nycSurchargeRate := 0
    nycSurchargeThreshold := 0 }

/-- A small sample cohort with easy numbers. -/
def sampleCohort : IncomeCohort :=
  { label := "sample"
    agiMin := 0
    agiMax := 10
    filerCount := 4
    totalAgi := 100
    nysLiability := 8
    nycLiability := 2
    nycResidentShare := 0.5 }

/-- A sample full model input. -/
def sampleInput : ModelInput :=
  { policy := samplePolicy
    behavioral := sampleParams
    timeHorizon := 5
    middleIncomeMin := 0
    middleIncomeMax := 10 }

/-- A sample model input whose behavioral model is `none`. -/
def sampleInputNone : ModelInput :=
  { sampleInput with behavioral := { sampleParams with model := .none } }

/-- The behavioral-parameter invariant of the spec's data model: all
rate/share fields lie in `[0, 1]` and the year shares are ordered. -/
def BehavioralInvariant (p : BehavioralParams) : Prop :=
  p.baseMigrationRate ∈ Set.Icc (0 : ℝ) 1 ∧
  p.maxMigrationShare ∈ Set.Icc (0 : ℝ) 1 ∧
  p.year1Share ∈ Set.Icc (0 : ℝ) 1 ∧
  p.year3Share ∈ Set.Icc (0 : ℝ) 1 ∧
  p.year5Share ∈ Set.Icc (0 : ℝ) 1 ∧
  p.replacementRate ∈ Set.Icc (0 : ℝ) 1 ∧
  p.year1Share ≤ p.year3Share ∧ p.year3Share ≤ p.year5Share

/-- The bracket-schedule invariant of the spec's data model: the
schedule is contiguous (it starts at income `0` and each bracket's upper
bound is the next bracket's lower bound — hence also sorted ascending
with no overlaps) and every bounded bracket is non-degenerate
(`min < max`).  Nothing in the spec constrains the rates. -/
def ValidBrackets (bs : List TaxBracket) : Prop :=
  (∀ b, bs.head? = some b → b.min = 0) ∧
  List.Chain' (fun b1 b2 => b1.max = some b2.min) bs ∧
  (∀ b ∈ bs, ∀ m, b.max = some m → b.min < m)

-- ──────────────────────────────────────────────────────────────
-- C7: computeMigrationShare is 0 for non-positive burden
-- ──────────────────────────────────────────────────────────────

/-- C7: for every model type and every `avgAgi`, behavioral parameter
record and time horizon, `computeMigrationShare` returns exactly `0`
whenever `additionalTaxPerFiler ≤ 0`. -/
theorem computeMigrationShare_nonpos_eq_zero
    (additionalTaxPerFiler avgAgi : ℝ) (params : BehavioralParams)
    (timeHorizon : ℕ) (h : additionalTaxPerFiler ≤ 0) :
    computeMigrationShare additionalTaxPerFiler avgAgi params timeHorizon = 0 := by
  unfold computeMigrationShare
  rw [if_pos h]

/-- Witness for C7 at a concrete non-positive burden. -/
theorem computeMigrationShare_nonpos_eq_zero_witness :
    (0 : ℝ) ≤ 0 ∧ computeMigrationShare 0 100 sampleParams 1 = 0 :=
  ⟨le_refl 0, computeMigrationShare_nonpos_eq_zero 0 100 sampleParams 1 (le_refl 0)⟩

-- ──────────────────────────────────────────────────────────────
-- C2: the result of computeMigrationShare lies in [0, maxMigrationShare]
-- ──────────────────────────────────────────────────────────────

/-- C2: for every `additionalTaxPerFiler` (however large), `avgAgi`,
behavioral parameter record (satisfying the data-model invariant that
its share fields are non-negative — here only `0 ≤ maxMigrationShare`
is needed) and time horizon, the migration share lies in the closed
interval `[0, maxMigrationShare]`. -/
theorem computeMigrationShare_mem_Icc
    (additionalTaxPerFiler avgAgi : ℝ) (params : BehavioralParams)
    (timeHorizon : ℕ) (hmax : 0 ≤ params.maxMigrationShare) :
    computeMigrationShare additionalTaxPerFiler avgAgi params timeHorizon ∈
      Set.Icc 0 params.maxMigrationShare := by
  have hclamp : ∀ raw : ℝ, netShareClamp params raw timeHorizon ∈
      Set.Icc 0 params.maxMigrationShare := by
    intro raw
    unfold netShareClamp
    constructor
    · exact le_max_left 0 _
    · exact max_le hmax (min_le_left _ _)
  unfold computeMigrationShare
  split
  · exact ⟨le_refl 0, hmax⟩
  · cases hm : params.model with
    | none => simp only [hm]; exact ⟨le_refl 0, hmax⟩
    | elasticity => simp only [hm]; exact hclamp _
    | threshold => simp only [hm]; exact hclamp _
    | hybrid => simp only [hm]; exact hclamp _

/-- Witness for C2 with the default parameters and a very large burden. -/
theorem computeMigrationShare_mem_Icc_witness :
    (0 : ℝ) ≤ sampleParams.maxMigrationShare ∧
      computeMigrationShare 1000000000 500000 sampleParams 5 ∈
        Set.Icc 0 sampleParams.maxMigrationShare :=
  ⟨by norm_num [sampleParams],
    computeMigrationShare_mem_Icc 1000000000 500000 sampleParams 5
      (by norm_num [sampleParams])⟩

-- ──────────────────────────────────────────────────────────────
-- C9: computeSurcharge values and monotonicity
-- ──────────────────────────────────────────────────────────────

/-- C9 counterexample: with the negative rate `-1`, `computeSurcharge`
is strictly decreasing in income across the threshold `0`, so the
claimed monotonicity "for every rate" fails. -/
theorem computeSurcharge_mono_counterexample :
    (0 : ℝ) ≤ 1 ∧
      computeSurcharge 0 (-1) 0 = 0 ∧
      computeSurcharge 1 (-1) 0 = -1 ∧
      ¬ computeSurcharge 0 (-1) 0 ≤ computeSurcharge 1 (-1) 0 := by
  refine ⟨by norm_num, ?_, ?_, ?_⟩ <;> norm_num [computeSurcharge]

/-- C9 (amended): `computeSurcharge` returns `0` at or below the
threshold and `rate * (income - threshold)` above it, for every income,
rate and threshold; and it is monotonic non-decreasing in income for
every fixed *non-negative* rate and threshold (the non-negativity of the
rate is forced by the counterexample). -/
theorem computeSurcharge_spec_amended :
    (∀ income rate threshold : ℝ,
      (income ≤ threshold → computeSurcharge income rate threshold = 0) ∧
      (threshold < income →
        computeSurcharge income rate threshold = rate * (income - threshold))) ∧
    (∀ rate threshold i1 i2 : ℝ, 0 ≤ rate → i1 ≤ i2 →
      computeSurcharge i1 rate threshold ≤ computeSurcharge i2 rate threshold) := by
  constructor
  · intro income rate threshold
    constructor
    · intro h; simp [computeSurcharge, h]
    · intro h
      rw [computeSurcharge, if_neg (not_le.mpr h)]
      ring
  · intro rate threshold i1 i2 hrate h12
    unfold computeSurcharge
    by_cases h1 : i1 ≤ threshold
    · rw [if_pos h1]
      by_cases h2 : i2 ≤ threshold
      · rw [if_pos h2]
      · rw [if_neg h2]
        have : 0 ≤ i2 - threshold := by
          have := not_le.mp h2; linarith
        exact mul_nonneg this hrate
    · rw [if_neg h1, if_neg (by push_neg at h1 ⊢; linarith)]
      have : i1 - threshold ≤ i2 - threshold := by linarith
      exact mul_le_mul_of_nonneg_right this hrate

/-- Witness for C9's amended statement at concrete inputs. -/
theorem computeSurcharge_spec_amended_witness :
    computeSurcharge 1 2 3 = 0 ∧
      computeSurcharge 5 2 3 = 2 * (5 - 3) ∧
      computeSurcharge 4 2 3 ≤ computeSurcharge 5 2 3 :=
  ⟨(computeSurcharge_spec_amended.1 1 2 3).1 (by norm_num),
    (computeSurcharge_spec_amended.1 5 2 3).2 (by norm_num),
    computeSurcharge_spec_amended.2 2 3 4 5 (by norm_num) (by norm_num)⟩

-- ──────────────────────────────────────────────────────────────
-- C10: a surcharge with threshold ≤ 0 is silently dropped
-- ──────────────────────────────────────────────────────────────

/-- C10: when `surchargeThreshold ≤ 0` the NYS surcharge component is
dropped even for a positive `surchargeRate`, leaving only the flat-rate
component plus any NYC component; symmetrically, when
`nycSurchargeThreshold ≤ 0` the NYC surcharge is omitted even for an
NYC resident under a policy with `includeNyc` set. -/
theorem computeAdditionalTaxPerFiler_zero_threshold
    (avgAgi : ℝ) (policy : PolicyChange) (isNycResident : Bool) :
    (policy.surchargeThreshold ≤ 0 →
      computeAdditionalTaxPerFiler avgAgi policy isNycResident =
        avgAgi * policy.flatRateChange +
          (if isNycResident = true ∧ policy.includeNyc = true ∧
              0 < policy.nycSurchargeRate ∧ 0 < policy.nycSurchargeThreshold then
            computeSurcharge avgAgi policy.nycSurchargeRate policy.nycSurchargeThreshold
          else 0)) ∧
    (policy.nycSurchargeThreshold ≤ 0 →
      computeAdditionalTaxPerFiler avgAgi policy isNycResident =
        avgAgi * policy.flatRateChange +
          (if 0 < policy.surchargeRate ∧ 0 < policy.surchargeThreshold then
            computeSurcharge avgAgi policy.surchargeRate policy.surchargeThreshold
          else 0)) := by
  have hflat : (if policy.flatRateChange ≠ 0 then avgAgi * policy.flatRateChange else 0) =
      avgAgi * policy.flatRateChange := by
    by_cases h : policy.flatRateChange = 0
    · simp [h]
    · rw [if_pos h]
  constructor
  · intro hthr
    unfold computeAdditionalTaxPerFiler
    rw [hflat, if_neg (by intro hconj; exact absurd hthr (not_le.mpr hconj.2))]
    by_cases hn : isNycResident && policy.includeNyc
    · rw [if_pos hn]
      rcases Bool.and_eq_true _ _ |>.mp hn with ⟨h1, h2⟩
      by_cases hg : 0 < policy.nycSurchargeRate ∧ 0 < policy.nycSurchargeThreshold
      · rw [if_pos hg, if_pos ⟨h1, h2, hg.1, hg.2⟩]; ring
      · rw [if_neg hg, if_neg (by intro hc; exact hg ⟨hc.2.2.1, hc.2.2.2⟩)]; ring
    · rw [if_neg hn,
        if_neg (by
          intro hc
          exact hn (by rw [hc.1, hc.2.1]; rfl))]
      ring
  · intro hthr
    unfold computeAdditionalTaxPerFiler
    rw [hflat]
    have hdrop : (if isNycResident && policy.includeNyc then
        (if 0 < policy.nycSurchargeRate ∧ 0 < policy.nycSurchargeThreshold then
          computeSurcharge avgAgi policy.nycSurchargeRate policy.nycSurchargeThreshold
        else 0)
      else 0) = 0 := by
      by_cases hn : isNycResident && policy.includeNyc
      · rw [if_pos hn, if_neg (by intro hc; exact absurd hthr (not_le.mpr hc.2))]
      · rw [if_neg hn]
    rw [hdrop]; ring

/-- Witness for C10: a policy with positive rates but zero thresholds
contributes nothing beyond the flat-rate component. -/
theorem computeAdditionalTaxPerFiler_zero_threshold_witness :
    ((0 : ℝ) ≤ 0 ∧
      computeAdditionalTaxPerFiler 100
        { surchargeRate := 0.05, surchargeThreshold := 0, flatRateChange := 0.01
          includeNyc := true, nycSurchargeRate := 0.03, nycSurchargeThreshold := 0 }
        true =
        100 * (0.01 : ℝ) + 0) := by
  constructor
  · exact le_refl 0
  · have h := (computeAdditionalTaxPerFiler_zero_threshold 100
      { surchargeRate := 0.05, surchargeThreshold := 0, flatRateChange := 0.01
        includeNyc := true, nycSurchargeRate := 0.03, nycSurchargeThreshold := 0 }
      true).1 (le_refl 0)
    rw [h]
    norm_num

-- ──────────────────────────────────────────────────────────────
-- C4: migration share at horizon 5 ≥ migration share at horizon 1
-- ──────────────────────────────────────────────────────────────

/-- The clamp tail is pointwise at least as large at horizon 5 as at
horizon 1 once the year shares are non-negative and ordered. -/
theorem netShareClamp_h5_ge_h1 (params : BehavioralParams) (raw : ℝ)
    (h1 : 0 ≤ params.year1Share) (h5 : 0 ≤ params.year5Share)
    (h15 : params.year1Share ≤ params.year5Share) :
    netShareClamp params raw 1 ≤ netShareClamp params raw 5 := by
  have e1 : getTimeScale 1 params = params.year1Share := by norm_num [getTimeScale]
  have e5 : getTimeScale 5 params = params.year5Share := by norm_num [getTimeScale]
  unfold netShareClamp
  rw [e1, e5]
  rcases le_or_lt 0 (raw * (1 - params.replacementRate)) with hc | hc
  · have hmul : raw * params.year1Share * (1 - params.replacementRate) ≤
        raw * params.year5Share * (1 - params.replacementRate) := by
      nlinarith [mul_nonneg hc (sub_nonneg.mpr h15)]
    exact max_le_max (le_refl 0) (min_le_min (le_refl _) hmul)
  · have hneg : -(raw * (1 - params.replacementRate)) ≥ 0 := by linarith
    have hn1 : raw * params.year1Share * (1 - params.replacementRate) ≤ 0 := by
      nlinarith [mul_nonneg h1 hneg]
    have hn5 : raw * params.year5Share * (1 - params.replacementRate) ≤ 0 := by
      nlinarith [mul_nonneg h5 hneg]
    rw [max_eq_left (le_trans (min_le_right _ _) hn1),
      max_eq_left (le_trans (min_le_right _ _) hn5)]

/-- C4: for every burden, average AGI and behavioral parameter record
satisfying the invariant (`year1Share ≤ year3Share ≤ year5Share`, all
rate/share fields in `[0,1]`) with positive average AGI, the migration
share at the 5-year horizon dominates the 1-year horizon. -/
theorem computeMigrationShare_h5_ge_h1
    (additionalTaxPerFiler avgAgi : ℝ) (params : BehavioralParams)
    (hinv : BehavioralInvariant params) (havg : 0 < avgAgi) :
    computeMigrationShare additionalTaxPerFiler avgAgi params 1 ≤
      computeMigrationShare additionalTaxPerFiler avgAgi params 5 := by
  obtain ⟨-, -, hy1, -, hy5, -, h13, h35⟩ := hinv
  by_cases hle : additionalTaxPerFiler ≤ 0
  · simp [computeMigrationShare, hle]
  · unfold computeMigrationShare
    rw [if_neg hle, if_neg hle]
    cases hm : params.model with
    | none => exact le_refl 0
    | elasticity =>
        exact netShareClamp_h5_ge_h1 params _ hy1.1 hy5.1 (le_trans h13 h35)
    | threshold =>
        exact netShareClamp_h5_ge_h1 params _ hy1.1 hy5.1 (le_trans h13 h35)
    | hybrid =>
        exact netShareClamp_h5_ge_h1 params _ hy1.1 hy5.1 (le_trans h13 h35)

/-- Witness for C4 with the default parameters. -/
theorem computeMigrationShare_h5_ge_h1_witness :
    BehavioralInvariant sampleParams ∧ (0 : ℝ) < 500000 ∧
      computeMigrationShare 200000 500000 sampleParams 1 ≤
        computeMigrationShare 200000 500000 sampleParams 5 :=
  ⟨by norm_num [BehavioralInvariant, sampleParams], by norm_num,
    computeMigrationShare_h5_ge_h1 200000 500000 sampleParams
      (by norm_num [BehavioralInvariant, sampleParams]) (by norm_num)⟩

-- ──────────────────────────────────────────────────────────────
-- C8: computeTax — zero at non-positive income, non-negative, monotone
-- ──────────────────────────────────────────────────────────────

/-- `computeTax` is non-negative whenever all rates are non-negative and
every bounded bracket has `min ≤ max`. -/
theorem computeTax_nonneg (income : ℝ) (bs : List TaxBracket)
    (hr : ∀ b ∈ bs, 0 ≤ b.rate)
    (hm : ∀ b ∈ bs, ∀ m, b.max = some m → b.min ≤ m) :
    0 ≤ computeTax income bs := by
  induction bs with
  | nil => simp [computeTax]
  | cons b rest ih =>
      by_cases h : income ≤ b.min
      · simp [computeTax, h]
      · rw [computeTax, if_neg h]
        have hterm : 0 ≤ ((match b.max with
            | some m => min income m
            | Option.none => income) - b.min) * b.rate := by
          apply mul_nonneg _ (hr b (List.mem_cons_self b rest))
          cases hbm : b.max with
          | none =>
              simp only
              linarith [not_le.mp h]
          | some m =>
              simp only
              have hbmin : b.min ≤ min income m :=
                le_min (le_of_lt (not_le.mp h))
                  (hm b (List.mem_cons_self b rest) m hbm)
              linarith
        have hrest : 0 ≤ computeTax income rest :=
          ih (fun x hx => hr x (List.mem_cons_of_mem b hx))
            (fun x hx => hm x (List.mem_cons_of_mem b hx))
        linarith

/-- `computeTax` is monotone non-decreasing in income whenever all rates
are non-negative and every bounded bracket has `min ≤ max`. -/
theorem computeTax_mono (i1 i2 : ℝ) (bs : List TaxBracket)
    (hr : ∀ b ∈ bs, 0 ≤ b.rate)
    (hm : ∀ b ∈ bs, ∀ m, b.max = some m → b.min ≤ m)
    (h12 : i1 ≤ i2) :
    computeTax i1 bs ≤ computeTax i2 bs := by
  induction bs with
  | nil => simp [computeTax]
  | cons b rest ih =>
      by_cases h1 : i1 ≤ b.min
      · rw [computeTax, if_pos h1]
        exact computeTax_nonneg i2 (b :: rest) hr hm
      · have h2 : ¬ i2 ≤ b.min := fun hc => h1 (le_trans h12 hc)
        rw [computeTax, if_neg h1, computeTax, if_neg h2]
        have hterm : ((match b.max with
            | some m => min i1 m
            | Option.none => i1) - b.min) * b.rate ≤
            ((match b.max with
            | some m => min i2 m
            | Option.none => i2) - b.min) * b.rate := by
          apply mul_le_mul_of_nonneg_right _ (hr b (List.mem_cons_self b rest))
          cases hbm : b.max with
          | none => simp only; linarith
          | some m =>
              simp only
              have : min i1 m ≤ min i2 m := min_le_min h12 (le_refl m)
              linarith
        have hrest : computeTax i1 rest ≤ computeTax i2 rest :=
          ih (fun x hx => hr x (List.mem_cons_of_mem b hx))
            (fun x hx => hm x (List.mem_cons_of_mem b hx))
        linarith

/-- C8 counterexample: the single-bracket schedule starting at `0` with
rate `-1` satisfies the bracket invariant as stated (contiguous, sorted
ascending, no overlaps), yet `computeTax 10` on it is `-10 < 0`,
refuting the claimed unconditional non-negativity (and with it
monotonicity, since `computeTax 0 = 0`). -/
theorem computeTax_negative_rate_counterexample :
    ValidBrackets [⟨0, Option.none, -1⟩] ∧
      computeTax 10 [⟨0, Option.none, -1⟩] = -10 ∧
      ¬ (0 : ℝ) ≤ computeTax 10 [⟨0, Option.none, -1⟩] := by
  refine ⟨⟨?_, ?_, ?_⟩, ?_, ?_⟩
  · intro b hb
    simp only [List.head?_cons, Option.some.injEq] at hb
    rw [← hb]
  · exact List.chain'_singleton _
  · intro b hb m hbm
    rw [List.mem_singleton] at hb
    subst hb
    simp at hbm
  · norm_num [computeTax]
  · norm_num [computeTax]

/-- C8 (amended): for every bracket list satisfying the invariant whose
rates are additionally all non-negative (forced by the counterexample),
`computeTax` returns `0` for every income ≤ 0, is always non-negative,
and is monotone non-decreasing in income. -/
theorem computeTax_spec_of_nonneg_rates (bs : List TaxBracket)
    (hv : ValidBrackets bs) (hr : ∀ b ∈ bs, 0 ≤ b.rate) :
    (∀ income : ℝ, income ≤ 0 → computeTax income bs = 0) ∧
    (∀ income : ℝ, 0 ≤ computeTax income bs) ∧
    (∀ i1 i2 : ℝ, i1 ≤ i2 → computeTax i1 bs ≤ computeTax i2 bs) := by
  obtain ⟨hhead, -, hlt⟩ := hv
  have hm : ∀ b ∈ bs, ∀ m, b.max = some m → b.min ≤ m :=
    fun b hb m hbm => le_of_lt (hlt b hb m hbm)
  refine ⟨?_, fun income => computeTax_nonneg income bs hr hm,
    fun i1 i2 h12 => computeTax_mono i1 i2 bs hr hm h12⟩
  intro income hinc
  cases bs with
  | nil => rfl
  | cons b rest =>
      have hb0 : b.min = 0 := hhead b rfl
      rw [computeTax, if_pos (by rw [hb0]; exact hinc)]

/-- Witness for C8's amended statement on the two-bracket schedule
`[0, 100) at 4%, [100, ∞) at 6%`. -/
theorem computeTax_spec_of_nonneg_rates_witness :
    ValidBrackets [⟨0, some 100, 0.04⟩, ⟨100, Option.none, 0.06⟩] ∧
      computeTax (-5) [⟨0, some 100, 0.04⟩, ⟨100, Option.none, 0.06⟩] = 0 ∧
      (0 : ℝ) ≤ computeTax 150 [⟨0, some 100, 0.04⟩, ⟨100, Option.none, 0.06⟩] ∧
      computeTax 120 [⟨0, some 100, 0.04⟩, ⟨100, Option.none, 0.06⟩] ≤
        computeTax 150 [⟨0, some 100, 0.04⟩, ⟨100, Option.none, 0.06⟩] := by
  have hv : ValidBrackets [⟨0, some 100, 0.04⟩, ⟨100, Option.none, 0.06⟩] := by
    refine ⟨?_, ?_, ?_⟩
    · intro b hb
      simp only [List.head?_cons, Option.some.injEq] at hb
      rw [← hb]
    · refine List.chain'_cons.mpr ⟨rfl, List.chain'_singleton _⟩
    · intro b hb m hbm
      rcases List.mem_cons.mp hb with h | h
      · subst h
        simp only [Option.some.injEq] at hbm
        rw [← hbm]; norm_num
      · rw [List.mem_singleton] at h
        subst h
        simp at hbm
  have hr : ∀ b ∈ [(⟨0, some 100, 0.04⟩ : TaxBracket), ⟨100, Option.none, 0.06⟩],
      0 ≤ b.rate := by
    intro b hb
    rcases List.mem_cons.mp hb with h | h
    · subst h; norm_num
    · rw [List.mem_singleton] at h; subst h; norm_num
  have h := computeTax_spec_of_nonneg_rates _ hv hr
  exact ⟨hv, h.1 (-5) (by norm_num), h.2.1 150, h.2.2 120 150 (by norm_num)⟩

-- ──────────────────────────────────────────────────────────────
-- Helper lemmas about the foldl-accumulated column sums
-- ──────────────────────────────────────────────────────────────

/-- `Array.reduce((s, x) => s + g x, a)` is `a` plus the sum of the
mapped list. -/
theorem foldl_add_eq {α : Type*} (g : α → ℝ) (l : List α) (a : ℝ) :
    l.foldl (fun s x => s + g x) a = a + (l.map g).sum := by
  induction l generalizing a with
  | nil => simp
  | cons x xs ih =>
      simp only [List.foldl_cons, List.map_cons, List.sum_cons, ih]
      ring

/-- The mechanical-gain total of `runModel` as a column sum. -/
theorem runModel_totalMechanicalGain (input : ModelInput)
    (cohorts : List IncomeCohort) :
    (runModel input cohorts).totalMechanicalGain =
      ((cohorts.map (cohortEval input.policy input.behavioral input.timeHorizon)).map
        (fun r => r.mechanicalGain)).sum := by
  show (cohorts.map (cohortEval input.policy input.behavioral input.timeHorizon)).foldl
      (fun s r => s + r.mechanicalGain) 0 = _
  rw [foldl_add_eq, zero_add]

/-- The migration-loss total of `runModel` as a column sum. -/
theorem runModel_totalBehavioralLoss (input : ModelInput)
    (cohorts : List IncomeCohort) :
    (runModel input cohorts).totalBehavioralLoss =
      ((cohorts.map (cohortEval input.policy input.behavioral input.timeHorizon)).map
        (fun r => r.migrationLoss)).sum := by
  show (cohorts.map (cohortEval input.policy input.behavioral input.timeHorizon)).foldl
      (fun s r => s + r.migrationLoss) 0 = _
  rw [foldl_add_eq, zero_add]

-- ──────────────────────────────────────────────────────────────
-- C6: behavioral model 'none' gives exactly zero behavioral loss
-- ──────────────────────────────────────────────────────────────

/-- With model `none` the migration share is exactly `0`. -/
theorem computeMigrationShare_of_model_none
    (additionalTaxPerFiler avgAgi : ℝ) (params : BehavioralParams)
    (timeHorizon : ℕ) (hm : params.model = .none) :
    computeMigrationShare additionalTaxPerFiler avgAgi params timeHorizon = 0 := by
  unfold computeMigrationShare
  split
  · rfl
  · rw [hm]

/-- With model `none` every cohort's migration loss is exactly `0`. -/
theorem cohortEval_migrationLoss_of_model_none
    (policy : PolicyChange) (params : BehavioralParams) (timeHorizon : ℕ)
    (c : IncomeCohort) (hm : params.model = .none) :
    (cohortEval policy params timeHorizon c).migrationLoss = 0 := by
  show (c.filerCount *
      computeMigrationShare _ (c.totalAgi / c.filerCount) params timeHorizon) * _ = 0
  rw [computeMigrationShare_of_model_none _ _ _ _ hm, mul_zero, zero_mul]

/-- C6: for every model input whose behavioral model is `none` and every
cohort list with positive filer counts, `runModel` returns a total
behavioral loss of exactly `0` and a net revenue change exactly equal to
the total mechanical gain. -/
theorem runModel_noneModel_exact (input : ModelInput)
    (cohorts : List IncomeCohort)
    (hmodel : input.behavioral.model = .none)
    (hpos : ∀ c ∈ cohorts, 0 < c.filerCount) :
    (runModel input cohorts).totalBehavioralLoss = 0 ∧
      (runModel input cohorts).netRevenueChange =
        (runModel input cohorts).totalMechanicalGain := by
  have hloss : (runModel input cohorts).totalBehavioralLoss = 0 := by
    rw [runModel_totalBehavioralLoss]
    apply List.sum_eq_zero
    intro x hx
    rw [List.map_map] at hx
    obtain ⟨c, -, rfl⟩ := List.mem_map.mp hx
    exact cohortEval_migrationLoss_of_model_none _ _ _ c hmodel
  refine ⟨hloss, ?_⟩
  have hnet : (runModel input cohorts).netRevenueChange =
      (runModel input cohorts).totalMechanicalGain -
        (runModel input cohorts).totalBehavioralLoss := rfl
  rw [hnet, hloss, sub_zero]

/-- Witness for C6 on a concrete input and cohort list. -/
theorem runModel_noneModel_exact_witness :
    sampleInputNone.behavioral.model = BehavioralModelType.none ∧
      (∀ c ∈ [sampleCohort], 0 < c.filerCount) ∧
      ((runModel sampleInputNone [sampleCohort]).totalBehavioralLoss = 0 ∧
        (runModel sampleInputNone [sampleCohort]).netRevenueChange =
          (runModel sampleInputNone [sampleCohort]).totalMechanicalGain) := by
  have hpos : ∀ c ∈ [sampleCohort], 0 < c.filerCount := by
    intro c hc
    rw [List.mem_singleton] at hc
    subst hc
    norm_num [sampleCohort]
  exact ⟨rfl, hpos, runModel_noneModel_exact sampleInputNone [sampleCohort] rfl hpos⟩

-- ──────────────────────────────────────────────────────────────
-- C1: runModel computes the per-cohort results exactly as specified
-- ──────────────────────────────────────────────────────────────

/-- Under a policy with `includeNyc` off, evaluating the full policy for
an NYC resident coincides with the NYS-only evaluation: the NYC block is
guarded by `includeNyc`. -/
theorem computeAdditionalTaxPerFiler_of_not_includeNyc
    (avgAgi : ℝ) (policy : PolicyChange) (hn : policy.includeNyc = false) :
    computeAdditionalTaxPerFiler avgAgi policy true =
      computeAdditionalTaxPerFiler avgAgi { policy with includeNyc := false } false := by
  simp [computeAdditionalTaxPerFiler, hn]

/-- C1: for every cohort with a positive filer count, `runModel`'s
result for that cohort has exactly the specified shape:
`additionalTaxPerFiler` is the NYS-only tax plus the incremental
NYC-only tax scaled by the NYC resident share, `mechanicalGain` is the
per-filer tax times the filer count, `migrationLoss` is the leaving
filers times the forfeited prior liability plus the new increment, and
`netRevenueChange` is their difference. -/
theorem runModel_cohortResults_spec (input : ModelInput)
    (cohorts : List IncomeCohort) (c : IncomeCohort)
    (hc : c ∈ cohorts) (hpos : 0 < c.filerCount) :
    ∃ r ∈ (runModel input cohorts).cohortResults,
      r.cohort = c ∧
      r.migrationShare = computeMigrationShare r.additionalTaxPerFiler
        (c.totalAgi / c.filerCount) input.behavioral input.timeHorizon ∧
      r.additionalTaxPerFiler =
        computeAdditionalTaxPerFiler (c.totalAgi / c.filerCount)
            { input.policy with includeNyc := false } false +
          (computeAdditionalTaxPerFiler (c.totalAgi / c.filerCount) input.policy true -
            computeAdditionalTaxPerFiler (c.totalAgi / c.filerCount)
              { input.policy with includeNyc := false } false) * c.nycResidentShare ∧
      r.mechanicalGain = r.additionalTaxPerFiler * c.filerCount ∧
      r.migrationLoss = (c.filerCount * r.migrationShare) *
        ((c.nysLiability + c.nycLiability) / c.filerCount + r.additionalTaxPerFiler) ∧
      r.netRevenueChange = r.mechanicalGain - r.migrationLoss := by
  refine ⟨cohortEval input.policy input.behavioral input.timeHorizon c, ?_, rfl,
    rfl, ?_, rfl, rfl, rfl⟩
  · exact List.mem_map_of_mem _ hc
  · show (computeAdditionalTaxPerFiler (c.totalAgi / c.filerCount)
        { input.policy with includeNyc := false } false) +
      (if input.policy.includeNyc then
        computeAdditionalTaxPerFiler (c.totalAgi / c.filerCount) input.policy true -
          computeAdditionalTaxPerFiler (c.totalAgi / c.filerCount)
            { input.policy with includeNyc := false } false
      else 0) * c.nycResidentShare = _
    cases hn : input.policy.includeNyc with
    | false =>
        rw [if_neg Bool.false_ne_true,
          computeAdditionalTaxPerFiler_of_not_includeNyc _ _ hn]
        ring
    | true => rw [if_pos rfl]

/-- Witness for C1 on a concrete input and cohort. -/
theorem runModel_cohortResults_spec_witness :
    sampleCohort ∈ [sampleCohort] ∧ (0 : ℝ) < sampleCohort.filerCount ∧
      (∃ r ∈ (runModel sampleInput [sampleCohort]).cohortResults,
        r.cohort = sampleCohort ∧
        r.migrationShare = computeMigrationShare r.additionalTaxPerFiler
          (sampleCohort.totalAgi / sampleCohort.filerCount)
          sampleInput.behavioral sampleInput.timeHorizon ∧
        r.additionalTaxPerFiler =
          computeAdditionalTaxPerFiler (sampleCohort.totalAgi / sampleCohort.filerCount)
              { sampleInput.policy with includeNyc := false } false +
            (computeAdditionalTaxPerFiler
                (sampleCohort.totalAgi / sampleCohort.filerCount)
                sampleInput.policy true -
              computeAdditionalTaxPerFiler
                (sampleCohort.totalAgi / sampleCohort.filerCount)
                { sampleInput.policy with includeNyc := false } false) *
              sampleCohort.nycResidentShare ∧
        r.mechanicalGain = r.additionalTaxPerFiler * sampleCohort.filerCount ∧
        r.migrationLoss = (sampleCohort.filerCount * r.migrationShare) *
          ((sampleCohort.nysLiability + sampleCohort.nycLiability) /
              sampleCohort.filerCount + r.additionalTaxPerFiler) ∧
        r.netRevenueChange = r.mechanicalGain - r.migrationLoss) :=
  ⟨List.mem_singleton.mpr rfl, by norm_num [sampleCohort],
    runModel_cohortResults_spec sampleInput [sampleCohort] sampleCohort
      (List.mem_singleton.mpr rfl) (by norm_num [sampleCohort])⟩

-- ──────────────────────────────────────────────────────────────
-- C3: the mechanical gain is non-decreasing along the rate sweep
-- ──────────────────────────────────────────────────────────────

/-- A surcharge with non-negative rate is non-negative. -/
theorem computeSurcharge_nonneg (income rate threshold : ℝ) (h : 0 ≤ rate) :
    0 ≤ computeSurcharge income rate threshold := by
  unfold computeSurcharge
  split
  · exact le_refl 0
  · have : 0 ≤ income - threshold := by linarith [not_le.mp (by assumption)]
    exact mul_nonneg this h

/-- The guarded NYS surcharge term of `computeAdditionalTaxPerFiler` is
monotone in the surcharge rate. -/
theorem surchargeTerm_mono (a threshold r1 r2 : ℝ) (h0 : 0 ≤ r1) (h12 : r1 ≤ r2) :
    (if 0 < r1 ∧ 0 < threshold then computeSurcharge a r1 threshold else 0) ≤
      (if 0 < r2 ∧ 0 < threshold then computeSurcharge a r2 threshold else 0) := by
  by_cases hthr : 0 < threshold
  · by_cases hr1 : 0 < r1
    · rw [if_pos ⟨hr1, hthr⟩, if_pos ⟨lt_of_lt_of_le hr1 h12, hthr⟩]
      by_cases ha : a ≤ threshold
      · simp [computeSurcharge, ha]
      · rw [computeSurcharge, if_neg ha, computeSurcharge, if_neg ha]
        exact mul_le_mul_of_nonneg_left h12 (by linarith [not_le.mp ha])
    · rw [if_neg (fun hc => hr1 hc.1)]
      by_cases hr2 : 0 < r2
      · rw [if_pos ⟨hr2, hthr⟩]
        exact computeSurcharge_nonneg a r2 threshold (le_trans h0 h12)
      · rw [if_neg (fun hc => hr2 hc.1)]
  · rw [if_neg (fun hc => hthr hc.2), if_neg (fun hc => hthr hc.2)]

/-- `computeAdditionalTaxPerFiler` is monotone in the NYS surcharge rate
when all other policy fields agree. -/
theorem computeAdditionalTaxPerFiler_mono_rate (a : ℝ) (p1 p2 : PolicyChange)
    (isNyc : Bool)
    (hthr : p1.surchargeThreshold = p2.surchargeThreshold)
    (hflat : p1.flatRateChange = p2.flatRateChange)
    (hinc : p1.includeNyc = p2.includeNyc)
    (hnr : p1.nycSurchargeRate = p2.nycSurchargeRate)
    (hnt : p1.nycSurchargeThreshold = p2.nycSurchargeThreshold)
    (h0 : 0 ≤ p1.surchargeRate) (h12 : p1.surchargeRate ≤ p2.surchargeRate) :
    computeAdditionalTaxPerFiler a p1 isNyc ≤
      computeAdditionalTaxPerFiler a p2 isNyc := by
  unfold computeAdditionalTaxPerFiler
  rw [hthr, hflat, hinc, hnr, hnt]
  exact add_le_add
    (add_le_add (le_refl _)
      (surchargeTerm_mono a p2.surchargeThreshold p1.surchargeRate p2.surchargeRate h0 h12))
    (le_refl _)

/-- The incremental NYC-only tax (full policy minus NYS-only) is exactly
the guarded NYC surcharge — in particular independent of the NYS
surcharge rate. -/
theorem computeAdditionalTaxPerFiler_full_sub_nys (a : ℝ) (p : PolicyChange) :
    computeAdditionalTaxPerFiler a p true -
      computeAdditionalTaxPerFiler a { p with includeNyc := false } false =
      (if p.includeNyc = true ∧ 0 < p.nycSurchargeRate ∧ 0 < p.nycSurchargeThreshold then
        computeSurcharge a p.nycSurchargeRate p.nycSurchargeThreshold
      else 0) := by
  cases hn : p.includeNyc with
  | false => simp [computeAdditionalTaxPerFiler, hn]
  | true =>
      simp only [computeAdditionalTaxPerFiler, hn, Bool.and_true, Bool.and_false,
        Bool.and_self, true_and, if_true, if_false]
      norm_num

/-- The NYC-increment term of the cohort evaluator, rewritten to its
rate-independent form. -/
theorem cohortEval_nycIncrement (a : ℝ) (p : PolicyChange) :
    (if p.includeNyc = true then
      computeAdditionalTaxPerFiler a p true -
        computeAdditionalTaxPerFiler a { p with includeNyc := false } false
    else 0) =
      (if p.includeNyc = true ∧ 0 < p.nycSurchargeRate ∧ 0 < p.nycSurchargeThreshold then
        computeSurcharge a p.nycSurchargeRate p.nycSurchargeThreshold
      else 0) := by
  cases hn : p.includeNyc with
  | false =>
      rw [if_neg Bool.false_ne_true, if_neg (fun hc => Bool.false_ne_true hc.1)]
  | true =>
      rw [if_pos rfl, computeAdditionalTaxPerFiler_full_sub_nys, hn]

/-- The per-cohort mechanical gain is monotone in the NYS surcharge rate
when all other policy fields agree and the filer count is non-negative. -/
theorem cohortEval_mechanicalGain_mono (p1 p2 : PolicyChange)
    (behavioral : BehavioralParams) (timeHorizon : ℕ) (c : IncomeCohort)
    (hthr : p1.surchargeThreshold = p2.surchargeThreshold)
    (hflat : p1.flatRateChange = p2.flatRateChange)
    (hinc : p1.includeNyc = p2.includeNyc)
    (hnr : p1.nycSurchargeRate = p2.nycSurchargeRate)
    (hnt : p1.nycSurchargeThreshold = p2.nycSurchargeThreshold)
    (h0 : 0 ≤ p1.surchargeRate) (h12 : p1.surchargeRate ≤ p2.surchargeRate)
    (hfc : 0 ≤ c.filerCount) :
    (cohortEval p1 behavioral timeHorizon c).mechanicalGain ≤
      (cohortEval p2 behavioral timeHorizon c).mechanicalGain := by
  show (computeAdditionalTaxPerFiler (c.totalAgi / c.filerCount)
        { p1 with includeNyc := false } false +
      (if p1.includeNyc = true then
        computeAdditionalTaxPerFiler (c.totalAgi / c.filerCount) p1 true -
          computeAdditionalTaxPerFiler (c.totalAgi / c.filerCount)
            { p1 with includeNyc := false } false
      else 0) * c.nycResidentShare) * c.filerCount ≤
    (computeAdditionalTaxPerFiler (c.totalAgi / c.filerCount)
        { p2 with includeNyc := false } false +
      (if p2.includeNyc = true then
        computeAdditionalTaxPerFiler (c.totalAgi / c.filerCount) p2 true -
          computeAdditionalTaxPerFiler (c.totalAgi / c.filerCount)
            { p2 with includeNyc := false } false
      else 0) * c.nycResidentShare) * c.filerCount
  apply mul_le_mul_of_nonneg_right _ hfc
  apply add_le_add
  · exact computeAdditionalTaxPerFiler_mono_rate _
      { p1 with includeNyc := false } { p2 with includeNyc := false } false
      hthr hflat rfl hnr hnt h0 h12
  · apply le_of_eq
    rw [cohortEval_nycIncrement, cohortEval_nycIncrement, hinc, hnr, hnt]

/-- The total mechanical gain of `runModel` is monotone in the NYS
surcharge rate when all other policy fields agree and all filer counts
are non-negative. -/
theorem runModel_totalMechanicalGain_mono (input : ModelInput)
    (p1 p2 : PolicyChange) (cohorts : List IncomeCohort)
    (hthr : p1.surchargeThreshold = p2.surchargeThreshold)
    (hflat : p1.flatRateChange = p2.flatRateChange)
    (hinc : p1.includeNyc = p2.includeNyc)
    (hnr : p1.nycSurchargeRate = p2.nycSurchargeRate)
    (hnt : p1.nycSurchargeThreshold = p2.nycSurchargeThreshold)
    (h0 : 0 ≤ p1.surchargeRate) (h12 : p1.surchargeRate ≤ p2.surchargeRate)
    (hfc : ∀ c ∈ cohorts, 0 ≤ c.filerCount) :
    (runModel { input with policy := p1 } cohorts).totalMechanicalGain ≤
      (runModel { input with policy := p2 } cohorts).totalMechanicalGain := by
  rw [runModel_totalMechanicalGain, runModel_totalMechanicalGain,
    List.map_map, List.map_map]
  apply List.sum_le_sum
  intro c hc
  exact cohortEval_mechanicalGain_mono p1 p2 input.behavioral input.timeHorizon c
    hthr hflat hinc hnr hnt h0 h12 (hfc c hc)

/-- C3: across the revenue-curve sweep (the surcharge rate swept from
`0` to `maxRate ≥ 0` in `steps` equal steps, all other inputs fixed,
filer counts non-negative per the cohort invariant), the total
mechanical gain is monotone non-decreasing: for indices `i ≤ j` (hence
sweep rates `r_i ≤ r_j`), the gain at `j` dominates the gain at `i`. -/
theorem revenueCurve_mechanicalGain_mono (baseInput : ModelInput)
    (maxRate : ℝ) (steps : ℕ) (cohorts : List IncomeCohort) (i j : ℕ)
    (hi : i < (generateRevenueCurve baseInput maxRate steps cohorts).length)
    (hj : j < (generateRevenueCurve baseInput maxRate steps cohorts).length)
    (hmax : 0 ≤ maxRate) (hfc : ∀ c ∈ cohorts, 0 ≤ c.filerCount)
    (hij : i ≤ j) :
    ((generateRevenueCurve baseInput maxRate steps cohorts).get ⟨i, hi⟩).mechanicalGain ≤
      ((generateRevenueCurve baseInput maxRate steps cohorts).get ⟨j, hj⟩).mechanicalGain := by
  have hpoint : ∀ (k : ℕ) (hk : k < (generateRevenueCurve baseInput maxRate steps cohorts).length),
      ((generateRevenueCurve baseInput maxRate steps cohorts).get ⟨k, hk⟩).mechanicalGain =
        (runModel { baseInput with
          policy := { baseInput.policy with surchargeRate := maxRate * k / steps } }
          cohorts).totalMechanicalGain := by
    intro k hk
    have hget : (generateRevenueCurve baseInput maxRate steps cohorts).get ⟨k, hk⟩ =
        (fun i : ℕ =>
          let rate := maxRate * (i : ℝ) / (steps : ℝ)
          let output :=
            runModel { baseInput with
              policy := { baseInput.policy with surchargeRate := rate } } cohorts
          { surchargeRate := rate
            mechanicalGain := output.totalMechanicalGain
            behavioralLoss := output.totalBehavioralLoss
            netRevenue := output.netRevenueChange : RevenueCurvePoint }) k := by
      unfold generateRevenueCurve
      rw [List.get_eq_getElem, List.getElem_map]
      congr 1
      simp
    rw [hget]
  rw [hpoint i hi, hpoint j hj]
  have hr0 : 0 ≤ maxRate * (i : ℝ) / (steps : ℝ) := by positivity
  have hrij : maxRate * (i : ℝ) / (steps : ℝ) ≤ maxRate * (j : ℝ) / (steps : ℝ) := by
    rcases Nat.eq_zero_or_pos steps with hs | hs
    · subst hs
      norm_num
    · have hsp : (0 : ℝ) < (steps : ℝ) := by exact_mod_cast hs
      rw [div_le_div_right hsp]
      exact mul_le_mul_of_nonneg_left (by exact_mod_cast hij) hmax
  exact runModel_totalMechanicalGain_mono baseInput _ _ cohorts rfl rfl rfl rfl rfl
    hr0 hrij hfc

/-- Witness for C3: concrete sweep with 50 steps up to a 10% rate. -/
theorem revenueCurve_mechanicalGain_mono_witness :
    (0 : ℝ) ≤ 0.1 ∧ (∀ c ∈ [sampleCohort], 0 ≤ c.filerCount) ∧ (0 : ℕ) ≤ 1 ∧
      ((generateRevenueCurve sampleInput 0.1 50 [sampleCohort]).get
          ⟨0, by simp [generateRevenueCurve]⟩).mechanicalGain ≤
        ((generateRevenueCurve sampleInput 0.1 50 [sampleCohort]).get
          ⟨1, by simp [generateRevenueCurve]⟩).mechanicalGain := by
  have hfc : ∀ c ∈ [sampleCohort], 0 ≤ c.filerCount := by
    intro c hc
    rw [List.mem_singleton] at hc
    subst hc
    norm_num [sampleCohort]
  exact ⟨by norm_num, hfc, by norm_num,
    revenueCurve_mechanicalGain_mono sampleInput 0.1 50 [sampleCohort] 0 1
      (by simp [generateRevenueCurve]) (by simp [generateRevenueCurve])
      (by norm_num) hfc (by norm_num)⟩

-- ──────────────────────────────────────────────────────────────
-- C5: the middle-income offset calculator
-- ──────────────────────────────────────────────────────────────

/-- A mapped list sum with non-negative terms and at least one positive
term is positive. -/
theorem sum_map_pos {α : Type*} (g : α → ℝ) (l : List α)
    (h0 : ∀ x ∈ l, 0 ≤ g x) (hex : ∃ x ∈ l, 0 < g x) :
    0 < (l.map g).sum := by
  induction l with
  | nil =>
      obtain ⟨x, hx, -⟩ := hex
      exact absurd hx (List.not_mem_nil x)
  | cons a as ih =>
      rw [List.map_cons, List.sum_cons]
      obtain ⟨x, hx, hpos⟩ := hex
      rcases List.mem_cons.mp hx with rfl | hx'
      · have hrest : 0 ≤ (as.map g).sum := by
          apply List.sum_nonneg
          intro y hy
          obtain ⟨z, hz, rfl⟩ := List.mem_map.mp hy
          exact h0 z (List.mem_cons_of_mem x hz)
        linarith
      · have hrec := ih (fun y hy => h0 y (List.mem_cons_of_mem a hy)) ⟨x, hx', hpos⟩
        have ha : 0 ≤ g a := h0 a (List.mem_cons_self a as)
        linarith

/-- C5: the middle-income offset calculator (i) returns null rate,
per-filer and pct fields when net change ≥ 0 while still reporting the
filer count of cohorts fully inside the band; (ii) when net change < 0
and the band overlaps at least one cohort with positive prorated AGI and
filer count (cohort fields non-negative per the invariant), it returns
`rateIncrease = |shortfall|/proratedAgi > 0` and
`perFiler = |shortfall|/proratedFilerCount > 0`; (iii) when the prorated
totals are zero it returns all-null fields rather than an error. -/
theorem computeMiddleIncomeOffset_spec (net middleIncomeMin middleIncomeMax : ℝ)
    (cohorts : List IncomeCohort) :
    (0 ≤ net →
      computeMiddleIncomeOffset net middleIncomeMin middleIncomeMax cohorts =
        { rateIncrease := Option.none, perFiler := Option.none
          pctIncome := Option.none
          filerCount := ((cohorts.filter fun c =>
              decide (middleIncomeMin ≤ c.agiMin ∧ c.agiMax ≤ middleIncomeMax)).map
            (fun c => c.filerCount)).sum }) ∧
    (net < 0 →
      (∀ c ∈ cohorts, 0 ≤ c.totalAgi ∧ 0 ≤ c.filerCount) →
      (∃ c ∈ middleCohorts middleIncomeMin middleIncomeMax cohorts,
        0 < c.totalAgi * clampedOverlap middleIncomeMin middleIncomeMax c ∧
        0 < c.filerCount * clampedOverlap middleIncomeMin middleIncomeMax c) →
      (computeMiddleIncomeOffset net middleIncomeMin middleIncomeMax cohorts).rateIncrease =
          some (|net| / totalMiddleAgi middleIncomeMin middleIncomeMax cohorts) ∧
        (computeMiddleIncomeOffset net middleIncomeMin middleIncomeMax cohorts).perFiler =
          some (|net| / middleFilerCount middleIncomeMin middleIncomeMax cohorts) ∧
        0 < |net| / totalMiddleAgi middleIncomeMin middleIncomeMax cohorts ∧
        0 < |net| / middleFilerCount middleIncomeMin middleIncomeMax cohorts) ∧
    (net < 0 →
      (totalMiddleAgi middleIncomeMin middleIncomeMax cohorts = 0 ∨
        middleFilerCount middleIncomeMin middleIncomeMax cohorts = 0) →
      computeMiddleIncomeOffset net middleIncomeMin middleIncomeMax cohorts =
        { rateIncrease := Option.none, perFiler := Option.none
          pctIncome := Option.none, filerCount := 0 }) := by
  refine ⟨?_, ?_, ?_⟩
  · intro h
    unfold computeMiddleIncomeOffset
    rw [if_pos h, foldl_add_eq, zero_add]
  · intro h hinv hex
    have hsub : ∀ c ∈ middleCohorts middleIncomeMin middleIncomeMax cohorts,
        c ∈ cohorts := fun c hc => List.mem_of_mem_filter hc
    have hagi : 0 < totalMiddleAgi middleIncomeMin middleIncomeMax cohorts := by
      unfold totalMiddleAgi
      rw [foldl_add_eq, zero_add]
      apply sum_map_pos
      · intro c hc
        exact mul_nonneg (hinv c (hsub c hc)).1 (le_max_left _ _)
      · obtain ⟨c, hc, h1, -⟩ := hex
        exact ⟨c, hc, h1⟩
    have hfc : 0 < middleFilerCount middleIncomeMin middleIncomeMax cohorts := by
      unfold middleFilerCount
      rw [foldl_add_eq, zero_add]
      apply sum_map_pos
      · intro c hc
        exact mul_nonneg (hinv c (hsub c hc)).2 (le_max_left _ _)
      · obtain ⟨c, hc, -, h2⟩ := hex
        exact ⟨c, hc, h2⟩
    have habs : 0 < |net| := abs_pos.mpr (ne_of_lt h)
    unfold computeMiddleIncomeOffset
    rw [if_neg (not_le.mpr h),
      if_neg (not_or.mpr ⟨ne_of_gt hagi, ne_of_gt hfc⟩)]
    exact ⟨rfl, rfl, div_pos habs hagi, div_pos habs hfc⟩
  · intro h hz
    unfold computeMiddleIncomeOffset
    rw [if_neg (not_le.mpr h), if_pos hz]

/-- Witness for C5, exercising all three branches with concrete bands. -/
theorem computeMiddleIncomeOffset_spec_witness :
    ((0 : ℝ) ≤ 5 ∧
      (computeMiddleIncomeOffset 5 0 10 [sampleCohort]).rateIncrease = Option.none) ∧
    ((-5 : ℝ) < 0 ∧
      (∀ c ∈ [sampleCohort], 0 ≤ c.totalAgi ∧ 0 ≤ c.filerCount) ∧
      (∃ c ∈ middleCohorts 0 10 [sampleCohort],
        0 < c.totalAgi * clampedOverlap 0 10 c ∧
        0 < c.filerCount * clampedOverlap 0 10 c) ∧
      (computeMiddleIncomeOffset (-5) 0 10 [sampleCohort]).rateIncrease =
        some (|(-5 : ℝ)| / totalMiddleAgi 0 10 [sampleCohort]) ∧
      0 < |(-5 : ℝ)| / totalMiddleAgi 0 10 [sampleCohort]) ∧
    ((-5 : ℝ) < 0 ∧
      (totalMiddleAgi 20 30 [sampleCohort] = 0 ∨
        middleFilerCount 20 30 [sampleCohort] = 0) ∧
      computeMiddleIncomeOffset (-5) 20 30 [sampleCohort] =
        { rateIncrease := Option.none, perFiler := Option.none
          pctIncome := Option.none, filerCount := 0 }) := by
  have hinv : ∀ c ∈ [sampleCohort], 0 ≤ c.totalAgi ∧ 0 ≤ c.filerCount := by
    intro c hc
    rw [List.mem_singleton] at hc
    subst hc
    norm_num [sampleCohort]
  have hmem : sampleCohort ∈ middleCohorts 0 10 [sampleCohort] := by
    unfold middleCohorts
    rw [List.mem_filter]
    refine ⟨List.mem_singleton.mpr rfl, ?_⟩
    rw [decide_eq_true_eq]
    norm_num [sampleCohort]
  have hclamp : clampedOverlap 0 10 sampleCohort = 1 := by
    norm_num [clampedOverlap, sampleCohort]
  have hex : ∃ c ∈ middleCohorts 0 10 [sampleCohort],
      0 < c.totalAgi * clampedOverlap 0 10 c ∧
      0 < c.filerCount * clampedOverlap 0 10 c := by
    refine ⟨sampleCohort, hmem, ?_, ?_⟩ <;>
      rw [hclamp] <;> norm_num [sampleCohort]
  have hzero : totalMiddleAgi 20 30 [sampleCohort] = 0 := by
    have hfilter : middleCohorts 20 30 [sampleCohort] = [] := by
      unfold middleCohorts
      rw [List.filter_cons, List.filter_nil]
      rw [if_neg (by rw [decide_eq_true_eq]; norm_num [sampleCohort])]
    unfold totalMiddleAgi
    rw [hfilter]
    rfl
  have h2 := (computeMiddleIncomeOffset_spec (-5) 0 10 [sampleCohort]).2.1
    (by norm_num) hinv hex
  refine ⟨⟨by norm_num, ?_⟩,
    ⟨by norm_num, hinv, hex, h2.1, h2.2.2.1⟩,
    ⟨by norm_num, Or.inl hzero, ?_⟩⟩
  · rw [((computeMiddleIncomeOffset_spec 5 0 10 [sampleCohort]).1 (by norm_num))]
  · exact (computeMiddleIncomeOffset_spec (-5) 20 30 [sampleCohort]).2.2
      (by norm_num) (Or.inl hzero)

end NyTax
